import Mathlib

/-!
Shallow embedding of `scripts/ops/cleanup_mcp_duplicate_servers.py`.

The script classifies MCP servers in an inventory snapshot as redundant
(all tools shadowed by preferred owners) or stale (status in a configured
set, old enough), gates destructive action behind warning thresholds, and
optionally deletes the candidates.

External collaborators (HTTP transport, JSON decoding, the wall clock) are
modelled by an `Env` record that supplies the result of every network call;
`main`'s control flow is embedded as `runMain`, which returns the exit code,
the sequence of network events performed, and the number of successful
deletions reported.  Python `sorted` on strings is modelled by insertion
sort under the lexicographic order on `String`; Python sets of strings are
modelled by lists queried with `contains` / deduplicated with `dedup`.
-/

namespace Cleanup

/-- Python `str.upper()`: upper-case every character (the script's status
tokens are ASCII, so `Char.toUpper` is an exact model). -/
def pyUpper (s : String) : String := String.mk (s.data.map Char.toUpper)

/-- Python `str.strip()`: drop leading and trailing whitespace. -/
def pyStrip (s : String) : String :=
  String.mk (((s.data.dropWhile Char.isWhitespace).reverse.dropWhile
    Char.isWhitespace).reverse)

/-- A computable decision procedure for the lexicographic order on strings
(Python's `<=` on `str`), via the order on the underlying character lists. -/
def decStrLe (a b : String) : Decidable (a ≤ b) :=
  decidable_of_iff (a.toList ≤ b.toList) String.le_iff_toList_le.symm

/-- Python `a <= b` on strings, as a boolean. -/
def strLeB (a b : String) : Bool := @decide (a ≤ b) (decStrLe a b)

/-- Python `sorted(...)` on a list of strings (lexicographic order). -/
def sortStrings (l : List String) : List String :=
  @List.insertionSort String (· ≤ ·) decStrLe l

/-- One argparse namespace: the CLI options of `parse_args`, with the
source's default values. -/
structure Args where
  token : String := ""
  email : String := ""
  password : String := ""
  keep : List String := []
  apply : Bool := false
  cleanupStale : Bool := false
  staleStatus : List String := []
  staleMinAgeSeconds : Int := 3600
  maxDuplicateTools : Int := 25
  maxRedundantServers : Int := 10
  failOnThreshold : Bool := false

/-- A network call issued through `request_json`. -/
inductive NetEvent where
  | login : NetEvent
  | listServers : NetEvent
  | detail : String → NetEvent
  | deleteCall : String → NetEvent
deriving DecidableEq, Repr

/-- Whether an event is a DELETE call. -/
def NetEvent.isDelete : NetEvent → Bool
  | NetEvent.deleteCall _ => true
  | _ => false

/-- The JSON body of one `GET /api/mcp/servers/{name}` response, reduced to
the three fields the script reads: `status` (`none` = missing/empty, i.e.
falsy in Python), `updatedAt` (`none` = missing or unparseable by `to_int`),
and the raw `tools` array restricted to its string elements. -/
structure RawDetail where
  status : Option String := none
  updatedAt : Option Int := none
  tools : List String := []

/-- The external collaborators of one run: the outcome of each network call
(login, list, per-name detail, per-name delete) and the wall clock.
`listBody = none` models a non-list body; `some raw` holds the `name` fields
of the returned records.  `detailBody name = none` models a failed JSON
object for that server. -/
structure Env where
  loginStatus : Nat := 200
  loginToken : Option String := some "tok"
  listStatus : Nat := 200
  listBody : Option (List String) := some []
  detailStatus : String → Nat := fun _ => 200
  detailBody : String → Option RawDetail := fun _ => some {}
  deleteStatus : String → Nat := fun _ => 204
  nowMs : Int := 0

/-- `to_int(value, default=0)` as used in `main`: an unparseable or missing
`updatedAt` becomes `0`. -/
def to_int (v : Option Int) : Int :=
  match v with
  | some n => n
  | none => 0

/-- Status normalization, line 217:
`str(detail_result.body.get("status") or "PENDING").upper()`. -/
def normStatus (raw : Option String) : String :=
  pyUpper (match raw with
    | none => "PENDING"
    | some s => if s.isEmpty then "PENDING" else s)

/-- Tool-list normalization, lines 221-223: keep non-blank strings, then
`sorted(set(tools))`. -/
def normTools (raw : List String) : List String :=
  sortStrings ((raw.filter (fun t => !((pyStrip t).isEmpty))).dedup)

/-- One normalized inventory record (name, status, updatedAt, tools) as
stored in `server_status` / `server_updated_at_ms` / `server_tools`. -/
structure ServerRec where
  name : String
  status : String
  updatedAtMs : Int
  tools : List String
deriving DecidableEq, Repr

/-- Build the normalized record for server `n` from its detail body. -/
def mkRec (n : String) (d : RawDetail) : ServerRec :=
  { name := n
    status := normStatus d.status
    updatedAtMs := to_int d.updatedAt
    tools := normTools d.tools }

/-- `pick_preferred_server` (lines 151-158): sort the owners that are in the
keep set; if any, take the first, else take the first of all owners sorted.
`none` models the `IndexError` Python would raise on an empty owner list. -/
def pick_preferred_server (serversForTool : List String) (keepServers : List String) :
    Option String :=
  match sortStrings (serversForTool.filter (fun name => keepServers.contains name)) with
  | p :: _ => some p
  | [] => (sortStrings serversForTool).head?

/-- The owners of a tool: the servers whose (deduplicated) tool set contains
it — the entry `tool_to_servers[t]` (lines 225-228). -/
def toolOwners (snap : List ServerRec) (t : String) : List String :=
  (snap.filter (fun s => s.tools.contains t)).map (fun s => s.name)

/-- A tool is a duplicate tool when ≥ 2 servers own it (line 230-232). -/
def isDuplicateTool (snap : List ServerRec) (t : String) : Bool :=
  2 ≤ (toolOwners snap t).length

/-- Python truthiness of the `duplicate_tools` dict (line 235): some tool of
some server is a duplicate tool. -/
def anyDuplicate (snap : List ServerRec) : Bool :=
  snap.any (fun s => s.tools.any (fun t => isDuplicateTool snap t))

/-- `preferred_by_tool.get(t)` (lines 240-243, 252): defined only for
duplicate tools, `None` (`none`) otherwise. -/
def preferredByTool (snap : List ServerRec) (keep : List String) (t : String) :
    Option String :=
  if isDuplicateTool snap t then pick_preferred_server (toolOwners snap t) keep
  else none

/-- The predicate of the `shadowed` comprehension (line 252): the tool is a
duplicate tool and its preferred owner is a different server. -/
def isShadowedFor (snap : List ServerRec) (keep : List String) (s : ServerRec)
    (t : String) : Bool :=
  (preferredByTool snap keep t != some s.name) && isDuplicateTool snap t

/-- `shadowed` for one server (line 252). -/
def shadowedTools (snap : List ServerRec) (keep : List String) (s : ServerRec) :
    List String :=
  s.tools.filter (fun t => isShadowedFor snap keep s t)

/-- The condition under which `main` appends a server to `redundant_servers`
(lines 234-261): some duplicate tool exists (the enclosing branch), the
server has tools, it is not in the keep set, and `shadowed` is non-empty
with `len(shadowed) == len(tools)`. -/
def isRedundant (snap : List ServerRec) (keep : List String) (s : ServerRec) : Bool :=
  anyDuplicate snap
    && !s.tools.isEmpty
    && !(keep.contains s.name)
    && !(shadowedTools snap keep s).isEmpty
    && (shadowedTools snap keep s).length == s.tools.length

/-- `redundant_servers = sorted(set(...))` (lines 234-261, 292). -/
def redundantServers (snap : List ServerRec) (keep : List String) : List String :=
  sortStrings (((snap.filter (fun s => isRedundant snap keep s)).map
    (fun s => s.name)).dedup)

/-- All distinct tool names in the snapshot (keys of `tool_to_servers`). -/
def allTools (snap : List ServerRec) : List String :=
  (snap.flatMap (fun s => s.tools)).dedup

/-- `len(duplicate_tools)` (line 296). -/
def duplicateToolCount (snap : List ServerRec) : Nat :=
  ((allTools snap).filter (fun t => isDuplicateTool snap t)).length

/-- The stale-status set (lines 266-269): upper-cased non-blank entries of
`--stale-status`, defaulting to `{"FAILED"}` when empty. -/
def effectiveStaleStatuses (ls : List String) : List String :=
  match (ls.filter (fun s => !((pyStrip s).isEmpty))).map pyUpper with
  | [] => ["FAILED"]
  | f => f

/-- `age_ms` (line 283): `max(0, now_ms - updated_at_ms)` when
`updated_at_ms > 0`, else `0`. -/
def ageMs (nowMs updatedAtMs : Int) : Int :=
  if 0 < updatedAtMs then max 0 (nowMs - updatedAtMs) else 0

/-- The stale-scan loop body for one server (lines 278-287): skipped when in
the keep set; otherwise stale iff its (re-upper-cased) status is in the
stale-status set and its age is at least `stale_min_age_seconds * 1000`. -/
def isStaleCandidate (args : Args) (nowMs : Int) (s : ServerRec) : Bool :=
  !(args.keep.contains s.name)
    && (effectiveStaleStatuses args.staleStatus).contains (pyUpper s.status)
    && args.staleMinAgeSeconds * 1000 ≤ ageMs nowMs s.updatedAtMs

/-- `stale_servers = sorted(set(...))` (lines 265-293): empty unless
`--cleanup-stale` is set. -/
def staleServers (args : Args) (snap : List ServerRec) (nowMs : Int) : List String :=
  if args.cleanupStale then
    sortStrings (((snap.filter (fun s => isStaleCandidate args nowMs s)).map
      (fun s => s.name)).dedup)
  else []

/-- `len(set(redundant_servers + stale_servers))` (line 303). -/
def totalDeleteCandidates (args : Args) (snap : List ServerRec) (nowMs : Int) : Nat :=
  ((redundantServers snap args.keep ++ staleServers args snap nowMs).dedup).length

/-- `warning_triggered` (lines 295-310): either count exceeds its ceiling. -/
def warningTriggered (args : Args) (snap : List ServerRec) (nowMs : Int) : Bool :=
  decide (args.maxDuplicateTools < (duplicateToolCount snap : Int))
    || decide (args.maxRedundantServers < (totalDeleteCandidates args snap nowMs : Int))

/-- `delete_targets = sorted(set(redundant_servers + stale_servers))`
(line 326). -/
def deleteTargets (args : Args) (snap : List ServerRec) (nowMs : Int) : List String :=
  sortStrings ((redundantServers snap args.keep ++ staleServers args snap nowMs).dedup)

/-- `resolve_token` (lines 127-148).  Returns the token or the exit code the
raised `SystemExit` carries (2: missing credentials, 3: failed login), plus
the network events performed (at most one login call). -/
def resolveToken (args : Args) (env : Env) : Except Int String × List NetEvent :=
  if !((pyStrip args.token).isEmpty) then (Except.ok (pyStrip args.token), [])
  else if (pyStrip args.email).isEmpty || args.password.isEmpty then (Except.error 2, [])
  else
    match env.loginToken with
    | some tok =>
      if env.loginStatus = 200 && !tok.isEmpty then (Except.ok tok, [NetEvent.login])
      else (Except.error 3, [NetEvent.login])
    | none => (Except.error 3, [NetEvent.login])

/-- `server_names` (lines 193-195): the truthy `name` fields, sorted. -/
def extractNames (raw : List String) : List String :=
  sortStrings (raw.filter (fun n => !n.isEmpty))

/-- The detail-fetch loop (lines 204-223): one GET per name in order; a
non-200 status or non-object body aborts the run with exit code 5 (no
further detail calls); on success every record is normalized via `mkRec`. -/
def fetchLoop (env : Env) : List String → List NetEvent × Except Int (List ServerRec)
  | [] => ([], Except.ok [])
  | n :: rest =>
    match env.detailBody n with
    | some d =>
      if env.detailStatus n = 200 then
        ((NetEvent.detail n :: (fetchLoop env rest).1),
         (fetchLoop env rest).2.map (fun recs => mkRec n d :: recs))
      else ([NetEvent.detail n], Except.error 5)
    | none => ([NetEvent.detail n], Except.error 5)

/-- The snapshot `fetchLoop` produces when every detail call succeeds. -/
def snapshotOf (env : Env) (names : List String) : List ServerRec :=
  names.map (fun n => mkRec n ((env.detailBody n).getD {}))

/-- The delete status codes accepted as success (line 340). -/
def deleteOkCodes : List Nat := [200, 202, 204]

/-- The deletion loop (lines 335-347): one DELETE per target in order; the
first status outside `deleteOkCodes` stops the loop with exit code 6.
Returns the delete events issued, the exit code, and the number of
`deleted: ...` success reports printed. -/
def deleteLoop (env : Env) : List String → List NetEvent × Int × Nat
  | [] => ([], 0, 0)
  | n :: rest =>
    if deleteOkCodes.contains (env.deleteStatus n) then
      ((NetEvent.deleteCall n :: (deleteLoop env rest).1),
       (deleteLoop env rest).2.1,
       (deleteLoop env rest).2.2 + 1)
    else ([NetEvent.deleteCall n], 6, 0)

/-- The observable outcome of one run: the process exit code, the network
events performed in order, and the number of successful deletions
reported. -/
structure RunResult where
  exitCode : Int
  trace : List NetEvent
  deletedCount : Nat
deriving DecidableEq, Repr

/-- `main` (lines 168-350): resolve the credential (line 170, possibly a
login call), validate the configuration (lines 171-176), list the servers
(lines 185-198), fetch every detail (lines 204-223), classify (lines
225-293), apply the threshold gate (lines 295-312), and — only with
`--apply` and a non-empty target list — run the deletion loop (lines
326-350). -/
def runMain (args : Args) (env : Env) : RunResult :=
  match (resolveToken args env).1 with
  | Except.error c => ⟨c, (resolveToken args env).2, 0⟩
  | Except.ok _tok =>
    if args.staleMinAgeSeconds < 0 then ⟨2, (resolveToken args env).2, 0⟩
    else if args.maxDuplicateTools < 0 ∨ args.maxRedundantServers < 0 then
      ⟨2, (resolveToken args env).2, 0⟩
    else
      match env.listBody with
      | none => ⟨4, (resolveToken args env).2 ++ [NetEvent.listServers], 0⟩
      | some raw =>
        if env.listStatus = 200 then
          if (extractNames raw).isEmpty then
            ⟨0, (resolveToken args env).2 ++ [NetEvent.listServers], 0⟩
          else
            match (fetchLoop env (extractNames raw)).2 with
            | Except.error c =>
              ⟨c, (resolveToken args env).2 ++ [NetEvent.listServers]
                    ++ (fetchLoop env (extractNames raw)).1, 0⟩
            | Except.ok snap =>
              if warningTriggered args snap env.nowMs && args.failOnThreshold then
                ⟨7, (resolveToken args env).2 ++ [NetEvent.listServers]
                      ++ (fetchLoop env (extractNames raw)).1, 0⟩
              else if (deleteTargets args snap env.nowMs).isEmpty then
                ⟨0, (resolveToken args env).2 ++ [NetEvent.listServers]
                      ++ (fetchLoop env (extractNames raw)).1, 0⟩
              else if args.apply = false then
                ⟨0, (resolveToken args env).2 ++ [NetEvent.listServers]
                      ++ (fetchLoop env (extractNames raw)).1, 0⟩
              else
                ⟨(deleteLoop env (deleteTargets args snap env.nowMs)).2.1,
                 (resolveToken args env).2 ++ [NetEvent.listServers]
                   ++ (fetchLoop env (extractNames raw)).1
                   ++ (deleteLoop env (deleteTargets args snap env.nowMs)).1,
                 (deleteLoop env (deleteTargets args snap env.nowMs)).2.2⟩
        else ⟨4, (resolveToken args env).2 ++ [NetEvent.listServers], 0⟩

/-- Modelled from the spec's phrase "the lexicographically smallest name":
the minimum of a list of strings under the lexicographic order, used to
compare `pick_preferred_server` against its specification. -/
def lexSmallest : List String → Option String
  | [] => none
  | x :: xs => some (xs.foldl (fun acc y => if strLeB y acc then y else acc) x)

/-- Concrete inputs for the C10 witness. -/
def c10Args : Args := { token := "t", keep := ["ALPHA", "alpha"] }

/-- Concrete server record for the C10 witness. -/
def c10Rec : ServerRec :=
  { name := "Alpha", status := "FAILED", updatedAtMs := 0, tools := ["x"] }

/-- Concrete inputs for the C2 counterexample. -/
def c2Args : Args := { email := "e@x", password := "p", staleMinAgeSeconds := -1 }

/-- Concrete args for the C6 witness: apply mode, `fail_on_threshold`,
duplicate-tool ceiling 0. -/
def c6Args : Args :=
  { token := "t", apply := true, failOnThreshold := true, maxDuplicateTools := 0 }

/-- Concrete environment for the C6 witness: two servers sharing tool `x`
and each owning a unique tool, so the duplicate-tool ceiling is breached
while there are zero delete candidates. -/
def c6Env : Env :=
  { listBody := some ["A", "B"], detailBody := fun n => some { tools := ["x", n] } }

/-- Concrete args for the C8 witness: apply mode with a token. -/
def c8Args : Args := { token := "t", apply := true }

/-- Concrete environment for the C8 witness: two servers both owning only
tool `x`, so `B` is redundant; every delete call returns status 500. -/
def c8Env : Env :=
  { listBody := some ["A", "B"], detailBody := fun _ => some { tools := ["x"] },
    deleteStatus := fun _ => 500 }

theorem mem_sortStrings {l : List String} {x : String} :
    x ∈ sortStrings l ↔ x ∈ l := by
  simp [sortStrings]

theorem sortStrings_perm (l : List String) : List.Perm (sortStrings l) l :=
  @List.perm_insertionSort String (· ≤ ·) decStrLe l

theorem sortStrings_head_min (l : List String) (h : l ≠ []) :
    ∃ m, (sortStrings l).head? = some m ∧ m ∈ l ∧ ∀ x ∈ l, m ≤ x := by
  have hperm : List.Perm (sortStrings l) l := sortStrings_perm l
  have hsorted : List.Sorted (· ≤ ·) (sortStrings l) :=
    @List.sorted_insertionSort String (· ≤ ·) decStrLe _ _ l
  cases hs : sortStrings l with
  | nil =>
    rw [hs] at hperm
    exact absurd hperm.symm.eq_nil h
  | cons m rest =>
    refine ⟨m, rfl, ?_, ?_⟩
    · exact hperm.subset (hs ▸ List.mem_cons_self m rest)
    · intro x hx
      have hx' : x ∈ sortStrings l := hperm.mem_iff.mpr hx
      rw [hs] at hx' hsorted
      rcases List.mem_cons.mp hx' with hxm | hxr
      · exact hxm ▸ le_refl m
      · exact List.rel_of_sorted_cons hsorted x hxr

theorem strLeB_iff (a b : String) : strLeB a b = true ↔ a ≤ b :=
  @decide_eq_true_iff _ (decStrLe a b)

theorem foldlMin_spec (xs : List String) (a : String) :
    (xs.foldl (fun acc y => if strLeB y acc then y else acc) a = a ∨
      xs.foldl (fun acc y => if strLeB y acc then y else acc) a ∈ xs) ∧
    xs.foldl (fun acc y => if strLeB y acc then y else acc) a ≤ a ∧
    (∀ y ∈ xs, xs.foldl (fun acc y => if strLeB y acc then y else acc) a ≤ y) := by
  induction xs generalizing a with
  | nil => simp
  | cons y ys ih =>
    simp only [List.foldl_cons]
    rcases hb : strLeB y a with _ | _
    · have hay : a ≤ y := le_of_not_le (fun hya => by
        rw [← strLeB_iff] at hya
        exact absurd hya (by simp [hb]))
      simp only [hb, Bool.false_eq_true, if_false]
      obtain ⟨hmem, hle, hall⟩ := ih a
      refine ⟨?_, hle, ?_⟩
      · rcases hmem with hm | hm
        · exact Or.inl hm
        · exact Or.inr (List.mem_cons_of_mem y hm)
      · intro z hz
        rcases List.mem_cons.mp hz with hzy | hzs
        · exact hzy ▸ le_trans hle hay
        · exact hall z hzs
    · have hya : y ≤ a := (strLeB_iff y a).mp hb
      simp only [hb, if_true]
      obtain ⟨hmem, hle, hall⟩ := ih y
      refine ⟨?_, le_trans hle hya, ?_⟩
      · rcases hmem with hm | hm
        · exact Or.inr (by rw [hm]; exact List.mem_cons_self y ys)
        · exact Or.inr (List.mem_cons_of_mem y hm)
      · intro z hz
        rcases List.mem_cons.mp hz with hzy | hzs
        · exact hzy ▸ hle
        · exact hall z hzs

theorem lexSmallest_spec (l : List String) (h : l ≠ []) :
    ∃ m, lexSmallest l = some m ∧ m ∈ l ∧ ∀ x ∈ l, m ≤ x := by
  cases l with
  | nil => exact absurd rfl h
  | cons x xs =>
    obtain ⟨hmem, hle, hall⟩ := foldlMin_spec xs x
    refine ⟨_, rfl, ?_, ?_⟩
    · rcases hmem with hm | hm
      · exact (by rw [hm]; exact List.mem_cons_self x xs)
      · exact List.mem_cons_of_mem x hm
    · intro z hz
      rcases List.mem_cons.mp hz with hzx | hzs
      · exact hzx ▸ hle
      · exact hall z hzs

theorem sortStrings_head?_eq_lexSmallest (l : List String) :
    (sortStrings l).head? = lexSmallest l := by
  cases hl : l with
  | nil => rfl
  | cons x xs =>
    obtain ⟨m, hm, hmem, hle⟩ := sortStrings_head_min (x :: xs) (by simp)
    obtain ⟨m', hm', hmem', hle'⟩ := lexSmallest_spec (x :: xs) (by simp)
    rw [hm, hm']
    exact congrArg some (le_antisymm (hle m' hmem') (hle' m hmem))

/-- C9: Age computation is monotonic in the clock: for a fixed `updatedAtMs`
and instants `now1 ≤ now2`, the age computed at `now2` is at least the age
computed at `now1`. -/
theorem C9_age_monotone (updatedAtMs now1 now2 : Int) (h : now1 ≤ now2) :
    ageMs now1 updatedAtMs ≤ ageMs now2 updatedAtMs := by
  unfold ageMs
  split
  · exact max_le_max (le_refl 0) (by omega)
  · exact le_refl 0

/-- Witness for C9 at `updatedAtMs = 5`, `now1 = 10`, `now2 = 20`. -/
theorem C9_age_monotone_witness :
    (10 : Int) ≤ 20 ∧ ageMs 10 5 ≤ ageMs 20 5 :=
  ⟨by decide, C9_age_monotone 5 10 20 (by decide)⟩

/-- C5: a server considered by the staleness scan (one not skipped by the
keep check) is classified stale iff its normalized status is in the
stale-status set and its age is at least the configured minimum age in
milliseconds, where the age is `max 0 (now - updatedAtMs)` for a positive
`updatedAtMs` and `0` otherwise; in particular an unknown update time
(`updatedAtMs = 0`) never triggers staleness when the minimum age is
positive. -/
theorem C5_stale_iff (args : Args) (s : ServerRec) (now : Int)
    (hkeep : args.keep.contains s.name = false) :
    (isStaleCandidate args now s = true ↔
      ((effectiveStaleStatuses args.staleStatus).contains (pyUpper s.status) = true ∧
        args.staleMinAgeSeconds * 1000 ≤ ageMs now s.updatedAtMs)) ∧
    (0 < s.updatedAtMs → ageMs now s.updatedAtMs = max 0 (now - s.updatedAtMs)) ∧
    (¬ 0 < s.updatedAtMs → ageMs now s.updatedAtMs = 0) ∧
    (s.updatedAtMs = 0 → 0 < args.staleMinAgeSeconds * 1000 →
      isStaleCandidate args now s = false) := by
  have hmem : s.name ∉ args.keep := by simpa using hkeep
  refine ⟨?_, ?_, ?_, ?_⟩
  · simp [isStaleCandidate, hkeep, hmem]
  · intro hpos
    simp [ageMs, hpos]
  · intro hpos
    simp [ageMs, hpos]
  · intro hzero hmin
    unfold isStaleCandidate
    have h0 : ageMs now s.updatedAtMs = 0 := by simp [ageMs, hzero]
    rw [h0]
    have hd : decide (args.staleMinAgeSeconds * 1000 ≤ (0 : Int)) = false := by
      simp only [decide_eq_false_iff_not]
      omega
    simp [hd]

/-- Witness for C5: a non-pinned `FAILED` server two hours old against a
one-hour minimum age. -/
theorem C5_stale_iff_witness :
    (({ token := "t", cleanupStale := true } : Args).keep.contains "C" = false) ∧
    ((isStaleCandidate { token := "t", cleanupStale := true } 7200000
        { name := "C", status := "FAILED", updatedAtMs := 1, tools := [] } = true ↔
      ((effectiveStaleStatuses ({ token := "t", cleanupStale := true } : Args).staleStatus).contains
          (pyUpper "FAILED") = true ∧
        ({ token := "t", cleanupStale := true } : Args).staleMinAgeSeconds * 1000 ≤
          ageMs 7200000 1)) ∧
    (0 < (1 : Int) → ageMs 7200000 1 = max 0 (7200000 - 1)) ∧
    (¬ 0 < (1 : Int) → ageMs 7200000 1 = 0) ∧
    ((1 : Int) = 0 → 0 < ({ token := "t", cleanupStale := true } : Args).staleMinAgeSeconds * 1000 →
      isStaleCandidate { token := "t", cleanupStale := true } 7200000
        { name := "C", status := "FAILED", updatedAtMs := 1, tools := [] } = false)) :=
  ⟨by decide,
   C5_stale_iff { token := "t", cleanupStale := true }
     { name := "C", status := "FAILED", updatedAtMs := 1, tools := [] } 7200000 (by decide)⟩

/-- C1 counterexample: a pinned server (`keep = ["srv"]`) whose status
`FAILED` is in the stale-status set and whose age (≈ two hours) exceeds the
one-hour minimum age is nevertheless not classified stale, because the
staleness scan skips servers in the keep set — refuting the claim that
pinning does not exempt a server from staleness classification. -/
theorem C1_counterexample :
    (effectiveStaleStatuses ({ token := "t", keep := ["srv"], cleanupStale := true } : Args).staleStatus).contains
        (pyUpper "FAILED") = true ∧
    ({ token := "t", keep := ["srv"], cleanupStale := true } : Args).staleMinAgeSeconds * 1000 ≤
      ageMs 7200000 1 ∧
    ({ token := "t", keep := ["srv"], cleanupStale := true } : Args).cleanupStale = true ∧
    isStaleCandidate { token := "t", keep := ["srv"], cleanupStale := true } 7200000
      { name := "srv", status := "FAILED", updatedAtMs := 1, tools := [] } = false ∧
    staleServers { token := "t", keep := ["srv"], cleanupStale := true }
      [{ name := "srv", status := "FAILED", updatedAtMs := 1, tools := [] }] 7200000 = [] := by
  decide

/-- C1 amended: pinning a server exempts it from staleness classification —
the staleness scan skips every server in the keep set, so a pinned server is
never a stale candidate and the stale list contains no pinned name. -/
theorem C1_pinned_exempt_from_stale (args : Args) (now : Int) (s : ServerRec)
    (snap : List ServerRec) (hkeep : args.keep.contains s.name = true) :
    isStaleCandidate args now s = false ∧
    (staleServers args snap now).filter (fun n => args.keep.contains n) = [] := by
  constructor
  · rw [isStaleCandidate, hkeep]
    rfl
  · rw [List.filter_eq_nil_iff]
    intro n hn
    unfold staleServers at hn
    split at hn
    · rw [mem_sortStrings, List.mem_dedup] at hn
      obtain ⟨r, hr, hrn⟩ := List.mem_map.mp hn
      obtain ⟨_, hcand⟩ := List.mem_filter.mp hr
      intro hcontains
      rw [← hrn] at hcontains
      rw [isStaleCandidate, hcontains] at hcand
      simp at hcand
    · simp at hn

/-- Witness for C1's amended theorem: the pinned `FAILED` server of the
counterexample is skipped. -/
theorem C1_pinned_exempt_from_stale_witness :
    isStaleCandidate { token := "t", keep := ["srv"], cleanupStale := true } 7200000
      { name := "srv", status := "FAILED", updatedAtMs := 1, tools := [] } = false ∧
    (staleServers { token := "t", keep := ["srv"], cleanupStale := true }
        [{ name := "srv", status := "FAILED", updatedAtMs := 1, tools := [] }] 7200000).filter
      (fun n => ({ token := "t", keep := ["srv"], cleanupStale := true } : Args).keep.contains n) = [] :=
  C1_pinned_exempt_from_stale { token := "t", keep := ["srv"], cleanupStale := true } 7200000
    { name := "srv", status := "FAILED", updatedAtMs := 1, tools := [] }
    [{ name := "srv", status := "FAILED", updatedAtMs := 1, tools := [] }] (by decide)

theorem anyDuplicate_of_isDuplicateTool (snap : List ServerRec) (t : String)
    (ht : isDuplicateTool snap t = true) : anyDuplicate snap = true := by
  have h2 : 2 ≤ (toolOwners snap t).length := by simpa [isDuplicateTool] using ht
  have hpos : 0 < (snap.filter (fun r => r.tools.contains t)).length := by
    unfold toolOwners at h2
    rw [List.length_map] at h2
    omega
  obtain ⟨r, hr⟩ := List.exists_mem_of_length_pos hpos
  obtain ⟨hrs, hrt⟩ := List.mem_filter.mp hr
  unfold anyDuplicate
  rw [List.any_eq_true]
  refine ⟨r, hrs, ?_⟩
  rw [List.any_eq_true]
  exact ⟨t, by simpa using hrt, ht⟩

/-- C3: a server is classified redundant iff it is not in the keep set, its
tool set is non-empty, and its shadowed-tool count equals its total tool
count (equivalently, every one of its tools is shadowed); in particular a
server with an empty tool set is never redundant, and when the snapshot has
no duplicate tools at all no server is redundant. -/
theorem C3_redundant_iff (snap : List ServerRec) (keep : List String) (s : ServerRec) :
    (isRedundant snap keep s = true ↔
      (keep.contains s.name = false ∧ s.tools ≠ [] ∧
        (shadowedTools snap keep s).length = s.tools.length)) ∧
    ((shadowedTools snap keep s).length = s.tools.length ↔
      ∀ t ∈ s.tools, isShadowedFor snap keep s t = true) ∧
    (s.tools = [] → isRedundant snap keep s = false) ∧
    (anyDuplicate snap = false → isRedundant snap keep s = false) := by
  refine ⟨?_, ?_, ?_, ?_⟩
  · constructor
    · intro h
      rw [isRedundant] at h
      repeat rw [Bool.and_eq_true] at h
      obtain ⟨⟨⟨⟨_, ht⟩, hk⟩, _⟩, hl⟩ := h
      refine ⟨by simpa using hk, by simpa using ht, by simpa using hl⟩
    · rintro ⟨hk, ht, hl⟩
      have hne : shadowedTools snap keep s ≠ [] := by
        intro hnil
        rw [hnil] at hl
        exact ht (List.eq_nil_of_length_eq_zero hl.symm)
      obtain ⟨t, htm⟩ := List.exists_mem_of_ne_nil _ hne
      have hsh : isShadowedFor snap keep s t = true :=
        (List.mem_filter.mp htm).2
      have hdupT : isDuplicateTool snap t = true := by
        rw [isShadowedFor] at hsh
        exact (Bool.and_eq_true_iff.mp hsh).2
      have ha : anyDuplicate snap = true :=
        anyDuplicate_of_isDuplicateTool snap t hdupT
      rw [isRedundant]
      repeat rw [Bool.and_eq_true]
      exact ⟨⟨⟨⟨ha, by simpa using ht⟩, by simpa using hk⟩, by simpa using hne⟩,
        by simpa using hl⟩
  · unfold shadowedTools
    exact List.filter_length_eq_length
  · intro h
    simp [isRedundant, h]
  · intro h
    simp [isRedundant, h]

/-- C4: for a duplicate tool (owned by at least two servers) the preferred
owner is deterministic: the lexicographically smallest name among the pinned
owners when some owner is pinned, otherwise the lexicographically smallest
name among all owners. -/
theorem C4_preferred_owner (owners keep : List String) (h2 : 2 ≤ owners.length) :
    pick_preferred_server owners keep =
      (if owners.filter (fun n => keep.contains n) = [] then lexSmallest owners
       else lexSmallest (owners.filter (fun n => keep.contains n))) := by
  unfold pick_preferred_server
  rcases hf : owners.filter (fun n => keep.contains n) with _ | ⟨p, rest⟩
  · rw [if_pos rfl]
    show (sortStrings owners).head? = lexSmallest owners
    exact sortStrings_head?_eq_lexSmallest owners
  · rw [if_neg (by simp)]
    rw [← sortStrings_head?_eq_lexSmallest]
    cases hs : sortStrings (p :: rest) with
    | nil =>
      have hperm := sortStrings_perm (p :: rest)
      rw [hs] at hperm
      exact absurd hperm.symm.eq_nil (by simp)
    | cons q qs => simp [hs]

/-- Witness for C4: owners `["beta", "alpha"]` with `"beta"` pinned. -/
theorem C4_preferred_owner_witness :
    pick_preferred_server ["beta", "alpha"] ["beta"] =
      (if ["beta", "alpha"].filter (fun n => (["beta"] : List String).contains n) = []
       then lexSmallest ["beta", "alpha"]
       else lexSmallest (["beta", "alpha"].filter
         (fun n => (["beta"] : List String).contains n))) :=
  C4_preferred_owner ["beta", "alpha"] ["beta"] (by decide)

/-- C10: keep-list membership is exact, case-sensitive string comparison: a
server whose name differs from every keep entry only in letter case is not
pinned — the redundancy classification does not exempt it, it never appears
among the pinned owners of the preferred-owner tie-break, and the staleness
scan does not skip it. -/
theorem C10_keep_case_sensitive (args : Args) (snap : List ServerRec)
    (now : Int) (s : ServerRec) (owners : List String)
    (hdiff : ∀ k ∈ args.keep, s.name ≠ k ∧ pyUpper s.name = pyUpper k) :
    args.keep.contains s.name = false ∧
    isRedundant snap args.keep s =
      (anyDuplicate snap && !s.tools.isEmpty
        && !(shadowedTools snap args.keep s).isEmpty
        && ((shadowedTools snap args.keep s).length == s.tools.length)) ∧
    (owners.filter (fun n => args.keep.contains n)).contains s.name = false ∧
    isStaleCandidate args now s =
      ((effectiveStaleStatuses args.staleStatus).contains (pyUpper s.status)
        && decide (args.staleMinAgeSeconds * 1000 ≤ ageMs now s.updatedAtMs)) := by
  have hc : args.keep.contains s.name = false := by
    rcases hv : args.keep.contains s.name with _ | _
    · rfl
    · exact absurd rfl (hdiff s.name (by simpa using hv)).1
  have hnm : s.name ∉ args.keep := by simpa using hc
  refine ⟨hc, ?_, ?_, ?_⟩
  · rw [isRedundant, hc]
    simp [Bool.and_assoc]
  · rcases hv : (owners.filter (fun n => args.keep.contains n)).contains s.name with _ | _
    · rfl
    · exfalso
      have hm : s.name ∈ owners.filter (fun n => args.keep.contains n) := by
        simpa using hv
      have h2 := (List.mem_filter.mp hm).2
      simp [hnm] at h2
  · rw [isStaleCandidate, hc]
    simp [Bool.and_assoc]

/-- Witness for C10: server `Alpha` against keep entries `ALPHA` and
`alpha`. -/
theorem C10_keep_case_sensitive_witness :
    c10Args.keep.contains "Alpha" = false ∧
    isRedundant [] c10Args.keep c10Rec =
      (anyDuplicate [] && !c10Rec.tools.isEmpty
        && !(shadowedTools [] c10Args.keep c10Rec).isEmpty
        && ((shadowedTools [] c10Args.keep c10Rec).length == c10Rec.tools.length)) ∧
    (["Alpha", "B"].filter (fun n => c10Args.keep.contains n)).contains "Alpha" = false ∧
    isStaleCandidate c10Args 7200000 c10Rec =
      ((effectiveStaleStatuses c10Args.staleStatus).contains (pyUpper c10Rec.status)
        && decide (c10Args.staleMinAgeSeconds * 1000 ≤ ageMs 7200000 c10Rec.updatedAtMs)) :=
  C10_keep_case_sensitive c10Args [] 7200000 c10Rec ["Alpha", "B"] (by decide)

theorem resolveToken_events (args : Args) (env : Env) :
    ∀ e ∈ (resolveToken args env).2, e = NetEvent.login := by
  intro e he
  unfold resolveToken at he
  split at he
  · simp at he
  · split at he
    · simp at he
    · split at he
      · split at he <;> (simp at he; exact he)
      · simp at he
        exact he

theorem resolveToken_events_shape (args : Args) (env : Env) :
    (resolveToken args env).2 = [] ∨ (resolveToken args env).2 = [NetEvent.login] := by
  unfold resolveToken
  split
  · exact Or.inl rfl
  · split
    · exact Or.inl rfl
    · split
      · split
        · exact Or.inr rfl
        · exact Or.inr rfl
      · exact Or.inr rfl

theorem resolveToken_error_codes (args : Args) (env : Env) (c : Int)
    (h : (resolveToken args env).1 = Except.error c) : c = 2 ∨ c = 3 := by
  unfold resolveToken at h
  split at h
  · simp at h
  · split at h
    · simp at h
      omega
    · split at h
      · split at h <;> simp at h <;> omega
      · simp at h
        omega

theorem fetchLoop_events (env : Env) (names : List String) :
    ∀ e ∈ (fetchLoop env names).1, ∃ n, e = NetEvent.detail n := by
  induction names with
  | nil =>
    intro e he
    simp [fetchLoop] at he
  | cons n rest ih =>
    intro e he
    unfold fetchLoop at he
    split at he
    · split at he
      · rcases List.mem_cons.mp he with h | h
        · exact ⟨n, h⟩
        · exact ih e h
      · simp at he
        exact ⟨n, he⟩
    · simp at he
      exact ⟨n, he⟩

theorem fetchLoop_ok (env : Env) (names : List String)
    (h : ∀ n ∈ names, env.detailStatus n = 200 ∧ (env.detailBody n).isSome = true) :
    fetchLoop env names =
      (names.map NetEvent.detail, Except.ok (snapshotOf env names)) := by
  induction names with
  | nil => simp [fetchLoop, snapshotOf]
  | cons n rest ih =>
    obtain ⟨hs, hb⟩ := h n (List.mem_cons_self n rest)
    obtain ⟨d, hd⟩ := Option.isSome_iff_exists.mp hb
    have ihr := ih (fun m hm => h m (List.mem_cons_of_mem n hm))
    unfold fetchLoop
    rw [hd]
    simp only [hs, if_true, ihr, snapshotOf, List.map_cons, Except.map, hd, Option.getD_some]

theorem deleteLoop_fail (env : Env) (pre : List String) (n : String) (post : List String)
    (hpre : ∀ m ∈ pre, deleteOkCodes.contains (env.deleteStatus m) = true)
    (hfail : deleteOkCodes.contains (env.deleteStatus n) = false) :
    deleteLoop env (pre ++ n :: post) =
      ((pre ++ [n]).map NetEvent.deleteCall, 6, pre.length) := by
  induction pre with
  | nil =>
    have hf : env.deleteStatus n ∉ deleteOkCodes := by simpa using hfail
    simp [deleteLoop, hf]
  | cons m rest ih =>
    have hm : env.deleteStatus m ∈ deleteOkCodes := by
      simpa using hpre m (List.mem_cons_self m rest)
    have ihr := ih (fun x hx => hpre x (List.mem_cons_of_mem m hx))
    simp [deleteLoop, hm, ihr]

theorem memRL_no_delete (args : Args) (env : Env) (e : NetEvent)
    (he : e ∈ (resolveToken args env).2 ++ [NetEvent.listServers]) :
    NetEvent.isDelete e = false := by
  rcases List.mem_append.mp he with h1 | h2
  · rw [resolveToken_events args env e h1]
    rfl
  · simp at h2
    rw [h2]
    rfl

theorem memRLF_no_delete (args : Args) (env : Env) (names : List String) (e : NetEvent)
    (he : e ∈ (resolveToken args env).2 ++ [NetEvent.listServers]
      ++ (fetchLoop env names).1) : NetEvent.isDelete e = false := by
  rcases List.mem_append.mp he with h1 | h2
  · exact memRL_no_delete args env e h1
  · obtain ⟨n, hn⟩ := fetchLoop_events env names e h2
    rw [hn]
    rfl

theorem memRLM_no_delete (args : Args) (env : Env) (names : List String) (e : NetEvent)
    (he : e ∈ (resolveToken args env).2 ++ [NetEvent.listServers]
      ++ names.map NetEvent.detail) : NetEvent.isDelete e = false := by
  rcases List.mem_append.mp he with h1 | h2
  · exact memRL_no_delete args env e h1
  · obtain ⟨n, _, hn⟩ := List.mem_map.mp h2
    rw [← hn]
    rfl

theorem runMain_classified (args : Args) (env : Env) (tok : String) (raw : List String)
    (hres : (resolveToken args env).1 = Except.ok tok)
    (hage : 0 ≤ args.staleMinAgeSeconds)
    (hmd : 0 ≤ args.maxDuplicateTools)
    (hmr : 0 ≤ args.maxRedundantServers)
    (hlb : env.listBody = some raw)
    (hls : env.listStatus = 200)
    (hne : extractNames raw ≠ [])
    (hdet : ∀ n ∈ extractNames raw,
      env.detailStatus n = 200 ∧ (env.detailBody n).isSome = true) :
    runMain args env =
      (if warningTriggered args (snapshotOf env (extractNames raw)) env.nowMs &&
          args.failOnThreshold then
        ⟨7, (resolveToken args env).2 ++ [NetEvent.listServers]
          ++ (extractNames raw).map NetEvent.detail, 0⟩
      else if (deleteTargets args (snapshotOf env (extractNames raw)) env.nowMs).isEmpty then
        ⟨0, (resolveToken args env).2 ++ [NetEvent.listServers]
          ++ (extractNames raw).map NetEvent.detail, 0⟩
      else if args.apply = false then
        ⟨0, (resolveToken args env).2 ++ [NetEvent.listServers]
          ++ (extractNames raw).map NetEvent.detail, 0⟩
      else
        ⟨(deleteLoop env (deleteTargets args (snapshotOf env (extractNames raw)) env.nowMs)).2.1,
         (resolveToken args env).2 ++ [NetEvent.listServers]
           ++ (extractNames raw).map NetEvent.detail
           ++ (deleteLoop env (deleteTargets args (snapshotOf env (extractNames raw)) env.nowMs)).1,
         (deleteLoop env (deleteTargets args (snapshotOf env (extractNames raw)) env.nowMs)).2.2⟩) := by
  unfold runMain
  rw [hres]
  simp only []
  rw [if_neg (show ¬ args.staleMinAgeSeconds < 0 by omega),
    if_neg (show ¬ (args.maxDuplicateTools < 0 ∨ args.maxRedundantServers < 0) by omega),
    hlb]
  simp only []
  rw [if_pos hls, if_neg (show ¬ (extractNames raw).isEmpty = true by simpa using hne),
    fetchLoop_ok env _ hdet]

/-- C2 (amended): a run whose configuration holds a negative minimum age or
a negative ceiling exits with a configuration or credential error code (2 or
3) before any inventory or deletion activity — its trace is empty or holds
only the credential-resolution login call (the validation runs only after
`resolve_token`, so that login call can occur). -/
theorem C2_neg_config_no_inventory (args : Args) (env : Env)
    (hneg : args.staleMinAgeSeconds < 0 ∨ args.maxDuplicateTools < 0 ∨
      args.maxRedundantServers < 0) :
    ((runMain args env).exitCode = 2 ∨ (runMain args env).exitCode = 3) ∧
    ((runMain args env).trace = [] ∨ (runMain args env).trace = [NetEvent.login]) := by
  unfold runMain
  rcases hr : (resolveToken args env).1 with c | tok <;> simp only [hr]
  · exact ⟨resolveToken_error_codes args env c hr, resolveToken_events_shape args env⟩
  · by_cases h1 : args.staleMinAgeSeconds < 0
    · rw [if_pos h1]
      exact ⟨Or.inl rfl, resolveToken_events_shape args env⟩
    · have h2 : args.maxDuplicateTools < 0 ∨ args.maxRedundantServers < 0 := by
        rcases hneg with h | h | h
        · exact absurd h h1
        · exact Or.inl h
        · exact Or.inr h
      rw [if_neg h1, if_pos h2]
      exact ⟨Or.inl rfl, resolveToken_events_shape args env⟩

/-- Witness for C2's amended theorem at the counterexample's inputs. -/
theorem C2_neg_config_no_inventory_witness :
    ((runMain c2Args {}).exitCode = 2 ∨ (runMain c2Args {}).exitCode = 3) ∧
    ((runMain c2Args {}).trace = [] ∨ (runMain c2Args {}).trace = [NetEvent.login]) :=
  C2_neg_config_no_inventory c2Args {} (Or.inl (by decide))

/-- C2 counterexample: with email/password credentials and a negative
minimum age, the run performs the login network call before reporting the
configuration error (exit code 2), refuting the claim that no login call is
made on a negative-configuration run. -/
theorem C2_counterexample :
    c2Args.staleMinAgeSeconds < 0 ∧
    runMain c2Args {} =
      { exitCode := 2, trace := [NetEvent.login], deletedCount := 0 } := by
  constructor
  · decide
  · rfl

/-- C7: a run without the apply flag (dry run) never issues a DELETE call,
regardless of the computed candidates: its trace has no delete event. -/
theorem C7_dry_run_no_delete (args : Args) (env : Env) (h : args.apply = false) :
    (runMain args env).trace.filter NetEvent.isDelete = [] := by
  rw [List.filter_eq_nil_iff]
  intro e he
  suffices hnd : NetEvent.isDelete e = false by simp [hnd]
  unfold runMain at he
  repeat' split at he
  all_goals
    first
    | (rw [resolveToken_events args env e he]; rfl)
    | exact memRL_no_delete args env e he
    | exact memRLF_no_delete args env _ e he

/-- Witness for C7: a dry run with one redundant candidate issues no
delete call. -/
theorem C7_dry_run_no_delete_witness :
    (runMain { token := "t" }
      { listBody := some ["A", "B"],
        detailBody := fun _ => some { tools := ["x"] } }).trace.filter
      NetEvent.isDelete = [] :=
  C7_dry_run_no_delete { token := "t" }
    { listBody := some ["A", "B"], detailBody := fun _ => some { tools := ["x"] } } rfl

/-- C6: when `fail_on_threshold` is set and the duplicate-tool count or the
candidate count exceeds its ceiling, the run exits with code 7 before any
deletion call — its trace has no delete event — regardless of the apply flag
and of the number of delete candidates. -/
theorem C6_threshold_gate (args : Args) (env : Env) (tok : String) (raw : List String)
    (hres : (resolveToken args env).1 = Except.ok tok)
    (hage : 0 ≤ args.staleMinAgeSeconds)
    (hmd : 0 ≤ args.maxDuplicateTools)
    (hmr : 0 ≤ args.maxRedundantServers)
    (hlb : env.listBody = some raw)
    (hls : env.listStatus = 200)
    (hne : extractNames raw ≠ [])
    (hdet : ∀ n ∈ extractNames raw,
      env.detailStatus n = 200 ∧ (env.detailBody n).isSome = true)
    (hfail : args.failOnThreshold = true)
    (hbreach : warningTriggered args (snapshotOf env (extractNames raw)) env.nowMs = true) :
    (runMain args env).exitCode = 7 ∧
    (runMain args env).trace.filter NetEvent.isDelete = [] := by
  rw [runMain_classified args env tok raw hres hage hmd hmr hlb hls hne hdet]
  rw [if_pos (show (warningTriggered args (snapshotOf env (extractNames raw)) env.nowMs &&
    args.failOnThreshold) = true by simp [hbreach, hfail])]
  refine ⟨rfl, ?_⟩
  rw [List.filter_eq_nil_iff]
  intro e he
  simp [memRLM_no_delete args env (extractNames raw) e he]

/-- Witness for C6: a breach with zero candidates in apply mode exits 7 with
no delete call. -/
theorem C6_threshold_gate_witness :
    (runMain c6Args c6Env).exitCode = 7 ∧
    (runMain c6Args c6Env).trace.filter NetEvent.isDelete = [] :=
  C6_threshold_gate c6Args c6Env "t" ["A", "B"] rfl (by decide) (by decide) (by decide)
    rfl rfl (by decide) (by decide) rfl (by decide)

/-- C8: in an apply-mode run, when the deletion loop meets its first
non-success status, it stops at that candidate: the run exits with code 6,
the only delete calls are those for the successful prefix plus the failing
candidate (none for the remaining candidates), and the reported number of
successful deletions is exactly the length of that prefix. -/
theorem C8_delete_fail_fast (args : Args) (env : Env) (tok : String) (raw : List String)
    (pre : List String) (n : String) (post : List String)
    (hres : (resolveToken args env).1 = Except.ok tok)
    (hage : 0 ≤ args.staleMinAgeSeconds)
    (hmd : 0 ≤ args.maxDuplicateTools)
    (hmr : 0 ≤ args.maxRedundantServers)
    (hlb : env.listBody = some raw)
    (hls : env.listStatus = 200)
    (hne : extractNames raw ≠ [])
    (hdet : ∀ n' ∈ extractNames raw,
      env.detailStatus n' = 200 ∧ (env.detailBody n').isSome = true)
    (hnogate : (warningTriggered args (snapshotOf env (extractNames raw)) env.nowMs &&
      args.failOnThreshold) = false)
    (happly : args.apply = true)
    (htag : deleteTargets args (snapshotOf env (extractNames raw)) env.nowMs =
      pre ++ n :: post)
    (hpre : ∀ m ∈ pre, deleteOkCodes.contains (env.deleteStatus m) = true)
    (hfail : deleteOkCodes.contains (env.deleteStatus n) = false) :
    (runMain args env).exitCode = 6 ∧
    (runMain args env).deletedCount = pre.length ∧
    (runMain args env).trace.filter NetEvent.isDelete =
      (pre ++ [n]).map NetEvent.deleteCall := by
  rw [runMain_classified args env tok raw hres hage hmd hmr hlb hls hne hdet]
  rw [if_neg (show ¬ (warningTriggered args (snapshotOf env (extractNames raw)) env.nowMs &&
    args.failOnThreshold) = true by simp [hnogate])]
  rw [htag]
  rw [if_neg (show ¬ (pre ++ n :: post).isEmpty = true by simp)]
  rw [if_neg (show ¬ args.apply = false by simp [happly])]
  rw [deleteLoop_fail env pre n post hpre hfail]
  refine ⟨rfl, rfl, ?_⟩
  rw [List.filter_append]
  have h1 : ((resolveToken args env).2 ++ [NetEvent.listServers]
      ++ (extractNames raw).map NetEvent.detail).filter NetEvent.isDelete = [] := by
    rw [List.filter_eq_nil_iff]
    intro e he
    simp [memRLM_no_delete args env (extractNames raw) e he]
  rw [h1]
  rw [List.filter_eq_self.mpr ?_]
  · rfl
  · intro e he
    obtain ⟨m, _, hm⟩ := List.mem_map.mp he
    rw [← hm]
    rfl

/-- Witness for C8: the first delete fails, the run exits 6 with zero
successes reported and exactly one delete call. -/
theorem C8_delete_fail_fast_witness :
    (runMain c8Args c8Env).exitCode = 6 ∧
    (runMain c8Args c8Env).deletedCount = ([] : List String).length ∧
    (runMain c8Args c8Env).trace.filter NetEvent.isDelete =
      (([] : List String) ++ ["B"]).map NetEvent.deleteCall :=
  C8_delete_fail_fast c8Args c8Env "t" ["A", "B"] [] "B" [] rfl (by decide) (by decide)
    (by decide) rfl rfl (by decide) (by decide) (by decide) rfl (by decide)
    (by decide) (by decide)

end Cleanup
